import Mathlib

/-!
Verification of the real-time presence and broadcast layer of the Synkora
collaborative project-management application.

The development shallowly embeds:
* the collaborative-canvas component (`CollaborativeCanvas`): its change
  observer `handleChange`, the remote-update handler `handleCanvasUpdate`,
  the debounced persistence save `saveCanvasState`, and the debounced
  cursor broadcaster;
* the client socket hook (`useSocket`): its lifecycle handlers
  (`onConnect`, `onDisconnect`, `onReconnect`, `onReconnectAttempt`),
  presence handlers (`onUserJoined`, `onUserLeft`, `onUsersActive`),
  the heartbeat interval, the unmount cleanup and the explicit
  `disconnect` callback;
* the server-side event relay, which is described by the design document
  but whose implementation (`server.js`) is not part of the sources here;
  it is modelled from the specification and marked as such.

Timers are modelled by explicit deadlines (`Option Nat` of absolute
milliseconds); event streams are lists processed left to right, matching
the single-threaded event loop of the runtime.
-/

namespace Synkora

abbrev ProjectId := String
abbrev ConnId := String
abbrev UserId := String

/-- A transient domain event `{projectId, kind, body}` relayed between room
members and never persisted by this subsystem. -/
structure DomainEvent where
  projectId : ProjectId
  kind : String
  body : String
  deriving DecidableEq, Repr

/-- Modelled from the spec: the Event Relay lives in `server.js`, which is
not among the sources; per §4.5 it "forwards the event verbatim to every
other current member of that room", and an event whose sender is not a
member of the room is dropped, not relayed.  `members` is the current
member set of the room keyed by the event's project id; the result is the
list of connections the event is delivered to. -/
def relayRecipients (members : List ConnId) (sender : ConnId)
    (_e : DomainEvent) : List ConnId :=
  if sender ∈ members then members.filter (fun c => c ≠ sender) else []

/-! ## Collaborative canvas component -/

/-- The tunables of the canvas component: the persistence save is debounced
3000 ms after the last change (`setTimeout(..., 3000)` in `handleChange`). -/
def saveDebounceMs : Nat := 3000

/-- The remote-update flag is reset 100 ms after a remote application
completes (`setTimeout(..., 100)` in `handleCanvasUpdate`). -/
def echoClearMs : Nat := 100

/-- Cursor broadcasts are debounced to every 100 ms
(`setTimeout(broadcastCursor, 100)` in `handlePointerMove`). -/
def cursorDebounceMs : Nat := 100

/-- The hook pings every 30000 ms (`setInterval(..., 30000)` in
`onConnect`). -/
def pingIntervalMs : Nat := 30000

/-- A change entry of the canvas store: record ids mapped to records for
`added` and `updated` (an update carries the new record), record ids for
`removed`. -/
structure ChangeSet where
  added : List (String × String)
  updated : List (String × String)
  removed : List String
  deriving DecidableEq, Repr

/-- The guard of `handleChange`:
`Object.keys(changes.added).length > 0 || Object.keys(changes.updated).length > 0 || Object.keys(changes.removed).length > 0`. -/
def hasChanges (cs : ChangeSet) : Bool :=
  decide (0 < cs.added.length) || decide (0 < cs.updated.length) ||
    decide (0 < cs.removed.length)

/-- The canvas store: record ids mapped to records. -/
abbrev Store := List (String × String)

/-- `editor.store.put([record])`: replaces the record with the same id, or
appends it. -/
def putRecord (st : Store) (r : String × String) : Store :=
  if st.any (fun p => p.1 == r.1) then
    st.map (fun p => if p.1 == r.1 then r else p)
  else st ++ [r]

/-- `editor.store.remove([id])`. -/
def removeRecord (st : Store) (id : String) : Store :=
  st.filter (fun p => p.1 != id)

/-- The application order of `handleCanvasUpdate`: put every added record,
put the new record of every update, then remove every removed id. -/
def applyChangeSet (st : Store) (cs : ChangeSet) : Store :=
  let s1 := cs.added.foldl putRecord st
  let s2 := cs.updated.foldl putRecord s1
  cs.removed.foldl removeRecord s2

/-- Outbound socket emissions of the canvas component. -/
inductive Broadcast where
  | canvasUpdate (projectId : ProjectId) (cs : ChangeSet)
  | canvasCursor (projectId : ProjectId) (x y : Int)
  deriving DecidableEq, Repr

/-- The store-change observer of the canvas component.  Input: the
`isRemoteUpdateRef` flag, the pending save deadline (`saveTimeoutRef`),
the current time, and the change entry.  Output: the emitted broadcasts
and the new save deadline.  A remote update returns immediately; an empty
change set neither broadcasts nor touches the save timer; a non-empty one
emits `canvas:update` and resets the save timer to 3000 ms from now. -/
def handleChange (isRemoteUpdate : Bool) (pending : Option Nat) (now : Nat)
    (projectId : ProjectId) (cs : ChangeSet) : List Broadcast × Option Nat :=
  if isRemoteUpdate then ([], pending)
  else if hasChanges cs then
    ([Broadcast.canvasUpdate projectId cs], some (now + saveDebounceMs))
  else ([], pending)

/-- State of the echo-suppression mechanism: the `isRemoteUpdateRef` flag,
the deadline of the pending flag-clearing timeout, the pending save
deadline and the store. -/
structure EchoState where
  isRemoteUpdate : Bool
  clearDeadline : Option Nat
  pending : Option Nat
  store : Store
  deriving Repr

/-- The incoming `canvas:update` handler: sets `isRemoteUpdateRef` to true
first, then applies the remote changes to the store — the store listener
fires synchronously for the induced change entry, and is modelled by the
embedded `handleChange` call observing the flag — and finally schedules
the flag reset 100 ms later.  Returns the new state and any broadcasts
the observer emitted during the application. -/
def handleCanvasUpdate (s : EchoState) (now : Nat) (projectId : ProjectId)
    (data : ChangeSet) : EchoState × List Broadcast :=
  let flagDuringApply : Bool := true
  let store' := applyChangeSet s.store data
  let (echoed, pending') := handleChange flagDuringApply s.pending now projectId data
  ({ isRemoteUpdate := flagDuringApply, clearDeadline := some (now + echoClearMs),
     pending := pending', store := store' }, echoed)

/-- The flag-clearing timeout firing: once its deadline is reached the
remote-update flag is reset. -/
def clearFlagTick (s : EchoState) (now : Nat) : EchoState :=
  match s.clearDeadline with
  | some d => if d ≤ now then { s with isRemoteUpdate := false, clearDeadline := none } else s
  | none => s

/-- State of the debounced saver: whether the editor is mounted
(`editor` non-null) and whether a save is in flight (`isSavingRef`). -/
structure SaverState where
  hasEditor : Bool
  isSaving : Bool
  deriving DecidableEq, Repr

/-- `saveCanvasState`: returns immediately when the editor is absent or a
save is already in flight (`if (!editor || isSavingRef.current) return`);
otherwise marks a save in flight and issues one request carrying the
current store snapshot. -/
def saveCanvasState (s : SaverState) (st : Store) : SaverState × Option Store :=
  if !s.hasEditor || s.isSaving then (s, none)
  else ({ s with isSaving := true }, some st)

/-- The `finally` block of `saveCanvasState`: the in-flight mark is
cleared when the request completes. -/
def saveComplete (s : SaverState) : SaverState := { s with isSaving := false }

/-- Runs a timed sequence of local mutations through the change observer.
Each element is `(time, change set)`; times are processed in order.  A
pending save deadline that has passed fires first, recording
`(deadline, store at that moment)`; then the mutation updates the store
and `handleChange` runs on the induced entry.  Returns the broadcasts,
the saves that fired, the remaining save deadline and the final store. -/
def runCanvas (projectId : ProjectId) (pending : Option Nat) (store : Store) :
    List (Nat × ChangeSet) → List Broadcast × List (Nat × Store) × Option Nat × Store
  | [] => ([], [], pending, store)
  | (t, cs) :: rest =>
      let fired : List (Nat × Store) :=
        match pending with
        | some d => if d ≤ t then [(d, store)] else []
        | none => []
      let pendingAfterFire : Option Nat :=
        match pending with
        | some d => if d ≤ t then none else some d
        | none => none
      let store' := applyChangeSet store cs
      let (bs, pending') := handleChange false pendingAfterFire t projectId cs
      let (bsRest, sRest, pFin, stFin) := runCanvas projectId pending' store' rest
      (bs ++ bsRest, fired ++ sRest, pFin, stFin)

/-- The save produced once the trailing deadline of a `runCanvas` run
fires with no further mutation: the remaining deadline paired with the
store it snapshots. -/
def finalSave (r : List Broadcast × List (Nat × Store) × Option Nat × Store) :
    Option (Nat × Store) :=
  r.2.2.1.map (fun d => (d, r.2.2.2))

/-- Runs a timed sequence of pointer moves through `handlePointerMove`.
Each element is `(time, (x, y))`.  A pending cursor timeout that has
passed fires `broadcastCursor` first, emitting the position current at
that moment (nothing when no position exists yet); then the move becomes
the current position and the timeout is reset to 100 ms from now.
Returns the fired broadcasts, the remaining timeout deadline and the
final position. -/
def runCursor (projectId : ProjectId) (pending : Option Nat)
    (pos : Option (Int × Int)) :
    List (Nat × Int × Int) → List Broadcast × Option Nat × Option (Int × Int)
  | [] => ([], pending, pos)
  | (t, p) :: rest =>
      let fired : List Broadcast :=
        match pending with
        | some d =>
          if d ≤ t then
            match pos with
            | some q => [Broadcast.canvasCursor projectId q.1 q.2]
            | none => []
          else []
        | none => []
      let (bs, pFin, posFin) :=
        runCursor projectId (some (t + cursorDebounceMs)) (some p) rest
      (fired ++ bs, pFin, posFin)

/-- The broadcasts of a whole cursor window: those fired during the moves,
followed by the one the trailing timeout emits when it fires undisturbed. -/
def cursorFlush (projectId : ProjectId)
    (r : List Broadcast × Option Nat × Option (Int × Int)) : List Broadcast :=
  match r.2.1, r.2.2 with
  | some _, some q => r.1 ++ [Broadcast.canvasCursor projectId q.1 q.2]
  | some _, none => r.1
  | none, _ => r.1

/-! ## The client socket hook: lifecycle handlers -/

/-- State the `useSocket` lifecycle handlers operate on: the transport
connection status observed by the interval callback
(`socketInstance.connected`), the `isConnected` and `isReconnecting`
React states, the heartbeat interval (`pingIntervalRef`, carrying its
period when armed) and the reconnect timeout (`reconnectTimeoutRef`). -/
structure HookState where
  transportConnected : Bool
  isConnected : Bool
  isReconnecting : Bool
  pingInterval : Option Nat
  reconnectTimeout : Option Nat
  deriving DecidableEq, Repr

/-- Socket lifecycle occurrences the hook reacts to: the socket.io
`connect`, `disconnect`, `reconnect` and `reconnect_attempt` events, a
firing of the heartbeat interval callback, and the effect cleanup on
unmount. -/
inductive HookEv where
  | connect
  | disconnect (reason : String)
  | reconnect
  | reconnectAttempt
  | pingTick
  | unmount
  deriving DecidableEq, Repr

/-- Observable emissions of the hook's handlers. -/
inductive HookAct where
  | joinProject (pid : ProjectId)
  | leaveProject (pid : ProjectId)
  | emitPing
  deriving DecidableEq, Repr

/-- The join emitted when a project id is remembered
(`if (projectId) joinProject(projectId)`). -/
def joinActs (pid? : Option ProjectId) : List HookAct :=
  match pid? with
  | some pid => [HookAct.joinProject pid]
  | none => []

/-- One step of the hook: dispatches an occurrence to the handler the
hook registered for it.
* `onConnect`: marks connected, stops reconnecting, joins the remembered
  room, and (re)arms the 30000 ms ping interval;
* `onDisconnect`: marks disconnected and reconnecting and clears the ping
  interval;
* `onReconnect`: stops reconnecting and rejoins the remembered room;
* `onReconnectAttempt`: marks reconnecting;
* a ping tick emits `ping` only while the interval is armed and the
  transport reports connected;
* the unmount cleanup leaves the room when still connected and clears the
  ping interval and the reconnect timeout. -/
def hookStep (pid? : Option ProjectId) (s : HookState) :
    HookEv → HookState × List HookAct
  | HookEv.connect =>
      ({ s with transportConnected := true, isConnected := true,
                isReconnecting := false, pingInterval := some pingIntervalMs },
       joinActs pid?)
  | HookEv.disconnect _ =>
      ({ s with transportConnected := false, isConnected := false,
                isReconnecting := true, pingInterval := none }, [])
  | HookEv.reconnect =>
      ({ s with isReconnecting := false }, joinActs pid?)
  | HookEv.reconnectAttempt =>
      ({ s with isReconnecting := true }, [])
  | HookEv.pingTick =>
      (s, if s.pingInterval.isSome && s.transportConnected then [HookAct.emitPing] else [])
  | HookEv.unmount =>
      ({ s with pingInterval := none, reconnectTimeout := none },
       if s.transportConnected then
         (joinActs pid?).map (fun a =>
           match a with
           | HookAct.joinProject p => HookAct.leaveProject p
           | a => a)
       else [])

/-- Runs a sequence of occurrences, accumulating the emitted actions. -/
def hookRun (pid? : Option ProjectId) (s : HookState) :
    List HookEv → HookState × List HookAct
  | [] => (s, [])
  | e :: es =>
      let (s', as1) := hookStep pid? s e
      let (sFin, as2) := hookRun pid? s' es
      (sFin, as1 ++ as2)

/-! ## The client socket hook: presence handlers -/

/-- A presence entry as the hook stores it (`ActiveUser`). -/
structure ActiveUser where
  userId : UserId
  userName : String
  userImage : Option String
  joinedAt : String
  deriving DecidableEq, Repr

/-- Presence events the hook listens to. -/
inductive PresenceEvent where
  | userJoined (u : ActiveUser)
  | userLeft (userId : UserId)
  | usersActive (users : List ActiveUser) (count : Nat)
  deriving DecidableEq, Repr

/-- `onUserJoined`: appends the newcomer unless an entry with the same
user id is already present (`if (prev.some((u) => u.userId === data.userId)) return prev`). -/
def onUserJoined (prev : List ActiveUser) (data : ActiveUser) : List ActiveUser :=
  if prev.any (fun u => u.userId == data.userId) then prev
  else prev ++ [data]

/-- `onUserLeft`: removes every entry with the departing user id. -/
def onUserLeft (prev : List ActiveUser) (uid : UserId) : List ActiveUser :=
  prev.filter (fun u => u.userId != uid)

/-- `onUsersActive`: replaces the list with the server's snapshot. -/
def onUsersActive (_prev : List ActiveUser) (users : List ActiveUser) :
    List ActiveUser :=
  users

/-- Processes one presence event with the hook's handlers. -/
def presenceStep (prev : List ActiveUser) : PresenceEvent → List ActiveUser
  | PresenceEvent.userJoined u => onUserJoined prev u
  | PresenceEvent.userLeft uid => onUserLeft prev uid
  | PresenceEvent.usersActive us _ => onUsersActive prev us

/-- The `activeUsers` list after a sequence of presence events. -/
def runPresence (init : List ActiveUser) (es : List PresenceEvent) :
    List ActiveUser :=
  es.foldl presenceStep init

/-- The user ids of a presence list. -/
def userIds (l : List ActiveUser) : List UserId :=
  l.map (fun u => u.userId)

/-! ## The client socket hook: explicit disconnect -/

/-- The hook state the `disconnect` callback clears, together with the
socket client's pending-reconnection status. -/
structure HookUiState where
  socketPresent : Bool
  isConnected : Bool
  activeUsers : List ActiveUser
  userCount : Nat
  reconnectPending : Bool
  deriving DecidableEq, Repr

/-- Modelled from the spec: `disconnectSocket` lives in `lib/socket.ts`,
which is not among the sources; per §4.6, an explicit user-initiated
close cancels the reconnection controller's pending backoff timer. -/
def disconnectSocket (s : HookUiState) : HookUiState :=
  { s with reconnectPending := false }

/-- The hook's `disconnect` callback: closes the socket via
`disconnectSocket`, then `setSocket(null)`, `setIsConnected(false)`,
`setActiveUsers([])`, `setUserCount(0)`. -/
def hookDisconnect (s : HookUiState) : HookUiState :=
  let s1 := disconnectSocket s
  { s1 with socketPresent := false, isConnected := false,
            activeUsers := [], userCount := 0 }

/-! ## Helper lemmas -/

theorem onUserJoined_nodup (prev : List ActiveUser) (d : ActiveUser)
    (h : (userIds prev).Nodup) : (userIds (onUserJoined prev d)).Nodup := by
  unfold onUserJoined
  by_cases hc : prev.any (fun u => u.userId == d.userId)
  · simpa [hc] using h
  · rw [if_neg hc]
    have hd : d.userId ∉ userIds prev := by
      intro hmem
      apply hc
      simp only [userIds, List.mem_map] at hmem
      obtain ⟨u, hu, he⟩ := hmem
      exact List.any_eq_true.mpr ⟨u, hu, by simp [he]⟩
    have heq : userIds (prev ++ [d]) = userIds prev ++ [d.userId] := by
      simp [userIds]
    rw [heq]
    exact List.Nodup.append h (List.nodup_singleton _)
      (by simpa [List.disjoint_singleton] using hd)

theorem onUserLeft_nodup (prev : List ActiveUser) (uid : UserId)
    (h : (userIds prev).Nodup) : (userIds (onUserLeft prev uid)).Nodup :=
  List.Nodup.sublist (List.Sublist.map _ (List.filter_sublist prev)) h

theorem hookRun_append (pid? : Option ProjectId) (s : HookState)
    (es1 es2 : List HookEv) :
    hookRun pid? s (es1 ++ es2) =
      ((hookRun pid? (hookRun pid? s es1).1 es2).1,
       (hookRun pid? s es1).2 ++ (hookRun pid? (hookRun pid? s es1).1 es2).2) := by
  induction es1 generalizing s with
  | nil => simp [hookRun]
  | cons e es ih => simp [hookRun, ih, List.append_assoc]

theorem hookRun_no_ping (pid? : Option ProjectId) (s : HookState)
    (es : List HookEv) (hInt : s.pingInterval = none)
    (hTr : s.transportConnected = false) (hc : HookEv.connect ∉ es) :
    HookAct.emitPing ∉ (hookRun pid? s es).2 ∧
    (hookRun pid? s es).1.pingInterval = none ∧
    (hookRun pid? s es).1.transportConnected = false := by
  induction es generalizing s with
  | nil => simp [hookRun, hInt, hTr]
  | cons e es ih =>
    have hc2 : HookEv.connect ∉ es := fun hm => hc (List.mem_cons_of_mem _ hm)
    cases e with
    | connect => exact absurd (List.mem_cons_self _ _) hc
    | disconnect r =>
        have h' := ih { s with transportConnected := false, isConnected := false,
                               isReconnecting := true, pingInterval := none }
          rfl rfl hc2
        simpa [hookRun, hookStep] using h'
    | reconnect =>
        have h' := ih { s with isReconnecting := false } hInt hTr hc2
        cases pid? with
        | none => simpa [hookRun, hookStep, joinActs] using h'
        | some pid => simpa [hookRun, hookStep, joinActs] using h'
    | reconnectAttempt =>
        have h' := ih { s with isReconnecting := true } hInt hTr hc2
        simpa [hookRun, hookStep] using h'
    | pingTick =>
        have h' := ih s hInt hTr hc2
        simpa [hookRun, hookStep, hInt] using h'
    | unmount =>
        have h' := ih { s with pingInterval := none, reconnectTimeout := none }
          rfl hTr hc2
        simpa [hookRun, hookStep, hTr] using h'

theorem hookRun_silent_mid (pid? : Option ProjectId) (s : HookState)
    (mid : List HookEv) (hInt : s.pingInterval = none)
    (hTr : s.transportConnected = false)
    (h : ∀ e ∈ mid, e = HookEv.reconnectAttempt ∨ e = HookEv.pingTick) :
    (hookRun pid? s mid).2 = [] ∧
    (hookRun pid? s mid).1.pingInterval = none ∧
    (hookRun pid? s mid).1.transportConnected = false := by
  induction mid generalizing s with
  | nil => simp [hookRun, hInt, hTr]
  | cons e es ih =>
    have h2 : ∀ e ∈ es, e = HookEv.reconnectAttempt ∨ e = HookEv.pingTick :=
      fun e hm => h e (List.mem_cons_of_mem _ hm)
    rcases h e (List.mem_cons_self _ _) with he | he <;> subst he
    · have h' := ih { s with isReconnecting := true } hInt hTr h2
      simpa [hookRun, hookStep] using h'
    · have h' := ih s hInt hTr h2
      simpa [hookRun, hookStep, hInt] using h'

theorem runCanvas_cons (pid : ProjectId) (pending : Option Nat) (store : Store)
    (m : Nat × ChangeSet) (rest : List (Nat × ChangeSet)) :
    runCanvas pid pending store (m :: rest) =
      (let fired : List (Nat × Store) :=
        match pending with
        | some d => if d ≤ m.1 then [(d, store)] else []
        | none => []
       let pendingAfterFire : Option Nat :=
        match pending with
        | some d => if d ≤ m.1 then none else some d
        | none => none
       let p := handleChange false pendingAfterFire m.1 pid m.2
       let r := runCanvas pid p.2 (applyChangeSet store m.2) rest
       (p.1 ++ r.1, fired ++ r.2.1, r.2.2.1, r.2.2.2)) := by
  obtain ⟨t, cs⟩ := m
  rfl

theorem runCursor_cons (pid : ProjectId) (pending : Option Nat)
    (pos : Option (Int × Int)) (m : Nat × Int × Int)
    (rest : List (Nat × Int × Int)) :
    runCursor pid pending pos (m :: rest) =
      (let fired : List Broadcast :=
        match pending with
        | some d =>
          if d ≤ m.1 then
            match pos with
            | some q => [Broadcast.canvasCursor pid q.1 q.2]
            | none => []
          else []
        | none => []
       let r := runCursor pid (some (m.1 + cursorDebounceMs)) (some m.2) rest
       (fired ++ r.1, r.2.1, r.2.2)) := by
  obtain ⟨t, p⟩ := m
  rfl

theorem runCanvas_burst (pid : ProjectId) (rest : List (Nat × ChangeSet)) :
    ∀ (m : Nat × ChangeSet) (store : Store) (pending : Option Nat),
      (∀ d ∈ pending, m.1 < d) →
      List.Chain' (fun a b => a.1 < b.1 ∧ b.1 < a.1 + saveDebounceMs) (m :: rest) →
      (∀ x ∈ m :: rest, hasChanges x.2 = true) →
      runCanvas pid pending store (m :: rest) =
        ((m :: rest).map (fun x => Broadcast.canvasUpdate pid x.2), [],
         some (((m :: rest).getLast (List.cons_ne_nil m rest)).1 + saveDebounceMs),
         List.foldl applyChangeSet store ((m :: rest).map (fun x => x.2))) := by
  induction rest with
  | nil =>
    intro m store pending hp _ hne
    have hm := hne m (List.mem_cons_self m [])
    cases pending with
    | none => simp [runCanvas, handleChange, hm]
    | some d =>
        have hd : ¬ d ≤ m.1 := by
          have := hp d (by simp)
          omega
        simp [runCanvas, handleChange, hm, hd]
  | cons m' rest' ih =>
    intro m store pending hp hch hne
    have hm := hne m (List.mem_cons_self m _)
    have hrel : m.1 < m'.1 ∧ m'.1 < m.1 + saveDebounceMs :=
      (List.chain'_cons.mp hch).1
    have hrec := ih m' (applyChangeSet store m.2) (some (m.1 + saveDebounceMs))
      (by simpa using hrel.2) (List.chain'_cons.mp hch).2
      (fun x hx => hne x (List.mem_cons_of_mem _ hx))
    rw [runCanvas_cons]
    cases pending with
    | none => simp [handleChange, hm, hrec, List.getLast_cons]
    | some d =>
        have hd : ¬ d ≤ m.1 := by
          have := hp d (by simp)
          omega
        simp [handleChange, hm, hd, hrec, List.getLast_cons]

theorem runCursor_burst (pid : ProjectId) (rest : List (Nat × Int × Int)) :
    ∀ (m : Nat × Int × Int) (pos : Option (Int × Int)) (pending : Option Nat),
      (∀ d ∈ pending, m.1 < d) →
      List.Chain' (fun a b => a.1 < b.1 ∧ b.1 < a.1 + cursorDebounceMs) (m :: rest) →
      runCursor pid pending pos (m :: rest) =
        ([], some (((m :: rest).getLast (List.cons_ne_nil m rest)).1 + cursorDebounceMs),
         some ((m :: rest).getLast (List.cons_ne_nil m rest)).2) := by
  induction rest with
  | nil =>
    intro m pos pending hp _
    cases pending with
    | none => simp [runCursor]
    | some d =>
        have hd : ¬ d ≤ m.1 := by
          have := hp d (by simp)
          omega
        simp [runCursor, hd]
  | cons m' rest' ih =>
    intro m pos pending hp hch
    have hrel : m.1 < m'.1 ∧ m'.1 < m.1 + cursorDebounceMs :=
      (List.chain'_cons.mp hch).1
    have hrec := ih m' (some m.2) (some (m.1 + cursorDebounceMs))
      (by simpa using hrel.2) (List.chain'_cons.mp hch).2
    rw [runCursor_cons]
    cases pending with
    | none => simp [hrec, List.getLast_cons]
    | some d =>
        have hd : ¬ d ≤ m.1 := by
          have := hp d (by simp)
          omega
        simp [hd, hrec, List.getLast_cons]

/-! ## Theorems -/

/-- Claim C3: processing any sequence of `user:joined`, `user:left` and
`users:active` events with the hook's handlers keeps the `activeUsers`
list free of duplicate user ids, provided the initial list is and —
as the presence tracker guarantees by construction (§4.3, modelled since
`server.js` is not among the sources) — every `users:active` snapshot in
the sequence is distinct-by-userId. -/
theorem presence_no_duplicate_userIds (init : List ActiveUser)
    (es : List PresenceEvent) (h0 : (userIds init).Nodup)
    (hsrv : ∀ us c, PresenceEvent.usersActive us c ∈ es → (userIds us).Nodup) :
    (userIds (runPresence init es)).Nodup := by
  induction es generalizing init with
  | nil => exact h0
  | cons e es ih =>
    have hstep : runPresence init (e :: es) = runPresence (presenceStep init e) es := by
      simp [runPresence]
    rw [hstep]
    have hsrv' : ∀ us c, PresenceEvent.usersActive us c ∈ es → (userIds us).Nodup :=
      fun us c hm => hsrv us c (List.mem_cons_of_mem _ hm)
    cases e with
    | userJoined u => exact ih _ (onUserJoined_nodup _ _ h0) hsrv'
    | userLeft uid => exact ih _ (onUserLeft_nodup _ _ h0) hsrv'
    | usersActive us c =>
        exact ih _ (hsrv us c (List.mem_cons_self _ _)) hsrv'

/-- Witness for C3: a user joining twice, a server snapshot and a leave
still yield a duplicate-free list. -/
theorem presence_no_duplicate_userIds_witness :
    (userIds (runPresence []
      [PresenceEvent.userJoined ⟨"u1", "Ann", none, "t1"⟩,
       PresenceEvent.userJoined ⟨"u1", "Ann", none, "t2"⟩,
       PresenceEvent.usersActive [⟨"u1", "Ann", none, "t1"⟩, ⟨"u2", "Bo", none, "t3"⟩] 2,
       PresenceEvent.userLeft "u2"])).Nodup := by
  apply presence_no_duplicate_userIds
  · simp [userIds]
  · intro us c hm
    simp only [List.mem_cons, List.not_mem_nil, or_false] at hm
    rcases hm with h | h | h | h
    · cases h
    · cases h
    · cases h
      decide
    · cases h

/-- Claim C1: for every DomainEvent sent by a member `sender` of a room with
member set `members`, every current member other than the sender receives
the event exactly once, the sender does not receive it, and connections
outside the room receive it zero times. -/
theorem relay_exactly_once (members : List ConnId) (sender m : ConnId)
    (e : DomainEvent) (hnd : members.Nodup) (hs : sender ∈ members) :
    (m ∈ members → m ≠ sender → (relayRecipients members sender e).count m = 1) ∧
    (relayRecipients members sender e).count sender = 0 ∧
    (m ∉ members → (relayRecipients members sender e).count m = 0) := by
  unfold relayRecipients
  rw [if_pos hs]
  refine ⟨?_, ?_, ?_⟩
  · intro hm hne
    apply List.count_eq_one_of_mem (hnd.filter _)
    simp [List.mem_filter, hm, hne]
  · rw [List.count_eq_zero]
    simp
  · intro hm
    rw [List.count_eq_zero]
    simp [List.mem_filter]
    intro h
    exact absurd h hm

/-- Witness for C1 at the three-member room `["a", "b", "c"]` with sender
`"a"` and receiver `"b"`. -/
theorem relay_exactly_once_witness :
    (["a", "b", "c"] : List ConnId).Nodup ∧ ("a" : ConnId) ∈ ["a", "b", "c"] ∧
    (relayRecipients ["a", "b", "c"] "a" ⟨"p", "task:create", "X"⟩).count "b" = 1 ∧
    (relayRecipients ["a", "b", "c"] "a" ⟨"p", "task:create", "X"⟩).count "a" = 0 ∧
    (relayRecipients ["a", "b", "c"] "a" ⟨"p", "task:create", "X"⟩).count "z" = 0 := by
  have h := relay_exactly_once ["a", "b", "c"] "a" "b" ⟨"p", "task:create", "X"⟩
    (by decide) (by decide)
  have h' := relay_exactly_once ["a", "b", "c"] "a" "z" ⟨"p", "task:create", "X"⟩
    (by decide) (by decide)
  exact ⟨by decide, by decide, h.1 (by decide) (by decide), h.2.1,
    h'.2.2 (by decide)⟩

/-- Claim C2: applying an incoming remote canvas mutation emits no outbound
`canvas:update`; the suppression flag is set before (and throughout) the
application, the change observer drops every notification while the flag
is set, the flag-clearing timeout is scheduled 100 ms after the
application completes, and firing it resets the flag. -/
theorem remote_apply_no_echo (s : EchoState) (now : Nat) (pid : ProjectId)
    (data : ChangeSet) (s' : EchoState) (d now' : Nat)
    (hd : s'.clearDeadline = some d) (hnow : d ≤ now') :
    (handleCanvasUpdate s now pid data).2 = [] ∧
    (handleCanvasUpdate s now pid data).1.isRemoteUpdate = true ∧
    (handleCanvasUpdate s now pid data).1.clearDeadline = some (now + echoClearMs) ∧
    (∀ (pending : Option Nat) (t : Nat) (pid2 : ProjectId) (cs : ChangeSet),
      (handleChange true pending t pid2 cs).1 = []) ∧
    (clearFlagTick s' now').isRemoteUpdate = false ∧
    (clearFlagTick s' now').clearDeadline = none := by
  refine ⟨?_, rfl, rfl, ?_, ?_, ?_⟩
  · simp [handleCanvasUpdate, handleChange]
  · intro pending t pid2 cs
    simp [handleChange]
  · simp [clearFlagTick, hd, hnow]
  · simp [clearFlagTick, hd, hnow]

/-- Witness for C2 at a concrete remote change set and a due
flag-clearing timeout. -/
theorem remote_apply_no_echo_witness :
    (handleCanvasUpdate ⟨false, none, none, []⟩ 0 "p" ⟨[("a", "r")], [], []⟩).2 = [] ∧
    (clearFlagTick ⟨true, some 100, none, []⟩ 100).isRemoteUpdate = false := by
  have h := remote_apply_no_echo ⟨false, none, none, []⟩ 0 "p" ⟨[("a", "r")], [], []⟩
    ⟨true, some 100, none, []⟩ 100 100 rfl (by decide)
  exact ⟨h.1, h.2.2.2.2.1⟩

/-- Claim C4: after a transport drop followed by a successful reconnect —
with only reconnection attempts and heartbeat ticks in between — the
client re-issues a join for exactly the remembered project id, exactly
once; with no remembered room it issues no join at all. -/
theorem reconnect_rejoins_exactly (pid : ProjectId) (s : HookState)
    (r : String) (mid : List HookEv)
    (hmid : ∀ e ∈ mid, e = HookEv.reconnectAttempt ∨ e = HookEv.pingTick) :
    (hookRun (some pid) s
        (HookEv.disconnect r :: (mid ++ [HookEv.reconnect]))).2 =
      [HookAct.joinProject pid] ∧
    (hookRun none s
        (HookEv.disconnect r :: (mid ++ [HookEv.reconnect]))).2 = [] := by
  have key : ∀ pid? : Option ProjectId,
      (hookRun pid? s (HookEv.disconnect r :: (mid ++ [HookEv.reconnect]))).2 =
        joinActs pid? := by
    intro pid?
    have hsil := hookRun_silent_mid pid?
      { s with transportConnected := false, isConnected := false,
               isReconnecting := true, pingInterval := none } mid rfl rfl hmid
    simp only [hookRun, hookStep]
    rw [hookRun_append]
    simp [hsil.1, hookRun, hookStep]
  exact ⟨key (some pid), key none⟩

/-- Witness for C4: one attempt between the drop and the reconnect. -/
theorem reconnect_rejoins_exactly_witness :
    (hookRun (some "p1") ⟨true, true, false, some 30000, none⟩
        (HookEv.disconnect "transport error" ::
          ([HookEv.reconnectAttempt] ++ [HookEv.reconnect]))).2 =
      [HookAct.joinProject "p1"] :=
  (reconnect_rejoins_exactly "p1" ⟨true, true, false, some 30000, none⟩
    "transport error" [HookEv.reconnectAttempt] (by decide)).1

/-- Claim C7: connecting arms the 30-second heartbeat interval, a tick of the
armed interval while the transport is connected emits exactly one ping,
a disconnect cancels the interval so no ping is emitted on any trace
between a disconnect and the next connect, and the unmount cleanup
clears both the heartbeat interval and the reconnect timeout. -/
theorem heartbeat_interval (pid? : Option ProjectId) (s s' : HookState)
    (mid : List HookEv) (r : String) (hon : s'.pingInterval.isSome = true)
    (htr : s'.transportConnected = true) (hmid : HookEv.connect ∉ mid) :
    pingIntervalMs = 30000 ∧
    (hookStep pid? s HookEv.connect).1.pingInterval = some pingIntervalMs ∧
    (hookStep pid? s' HookEv.pingTick).2 = [HookAct.emitPing] ∧
    (hookStep pid? s (HookEv.disconnect r)).1.pingInterval = none ∧
    HookAct.emitPing ∉
      (hookRun pid? (hookStep pid? s (HookEv.disconnect r)).1 mid).2 ∧
    (hookStep pid? s' HookEv.unmount).1.pingInterval = none ∧
    (hookStep pid? s' HookEv.unmount).1.reconnectTimeout = none := by
  refine ⟨rfl, rfl, ?_, rfl, ?_, rfl, rfl⟩
  · simp [hookStep, hon, htr]
  · exact (hookRun_no_ping pid? _ mid rfl rfl hmid).1

/-- Witness for C7 at a connected state with an armed interval and a
post-disconnect trace containing a tick, an attempt and a reconnect. -/
theorem heartbeat_interval_witness :
    (hookStep (some "p1") ⟨true, true, false, some 30000, none⟩
        HookEv.pingTick).2 = [HookAct.emitPing] ∧
    HookAct.emitPing ∉
      (hookRun (some "p1")
        (hookStep (some "p1") ⟨true, true, false, some 30000, none⟩
          (HookEv.disconnect "ping timeout")).1
        [HookEv.pingTick, HookEv.reconnectAttempt, HookEv.reconnect]).2 := by
  have h := heartbeat_interval (some "p1") ⟨true, true, false, some 30000, none⟩
    ⟨true, true, false, some 30000, none⟩
    [HookEv.pingTick, HookEv.reconnectAttempt, HookEv.reconnect]
    "ping timeout" (by decide) (by decide) (by decide)
  exact ⟨h.2.2.1, h.2.2.2.2.1⟩

/-- Claim C5: a burst of non-empty local mutations whose consecutive gaps are
all shorter than the 3000 ms save-debounce window emits one undebounced
`canvas:update` broadcast per mutation, fires no save during the burst,
and leaves exactly one save scheduled 3000 ms after the last mutation,
snapshotting the store as it stands after the final mutation. -/
theorem burst_single_debounced_save (pid : ProjectId) (store : Store)
    (m : Nat × ChangeSet) (rest : List (Nat × ChangeSet))
    (hch : List.Chain' (fun a b => a.1 < b.1 ∧ b.1 < a.1 + saveDebounceMs) (m :: rest))
    (hne : ∀ x ∈ m :: rest, hasChanges x.2 = true) :
    (runCanvas pid none store (m :: rest)).1 =
      (m :: rest).map (fun x => Broadcast.canvasUpdate pid x.2) ∧
    (runCanvas pid none store (m :: rest)).2.1 = [] ∧
    finalSave (runCanvas pid none store (m :: rest)) =
      some (((m :: rest).getLast (List.cons_ne_nil m rest)).1 + saveDebounceMs,
        List.foldl applyChangeSet store ((m :: rest).map (fun x => x.2))) := by
  have h := runCanvas_burst pid rest m store none (by simp) hch hne
  rw [h]
  exact ⟨rfl, rfl, rfl⟩

/-- Witness for C5: two one-record mutations 1000 ms apart produce two
broadcasts, no save during the burst, and one save at 4000 ms holding
both records. -/
theorem burst_single_debounced_save_witness :
    List.Chain' (fun a b => a.1 < b.1 ∧ b.1 < a.1 + saveDebounceMs)
      [((0 : Nat), ChangeSet.mk [("a", "r1")] [] []),
       (1000, ChangeSet.mk [("b", "r2")] [] [])] ∧
    (runCanvas "p" none []
      [((0 : Nat), ChangeSet.mk [("a", "r1")] [] []),
       (1000, ChangeSet.mk [("b", "r2")] [] [])]).1 =
      [Broadcast.canvasUpdate "p" (ChangeSet.mk [("a", "r1")] [] []),
       Broadcast.canvasUpdate "p" (ChangeSet.mk [("b", "r2")] [] [])] ∧
    (runCanvas "p" none []
      [((0 : Nat), ChangeSet.mk [("a", "r1")] [] []),
       (1000, ChangeSet.mk [("b", "r2")] [] [])]).2.1 = [] ∧
    finalSave (runCanvas "p" none []
      [((0 : Nat), ChangeSet.mk [("a", "r1")] [] []),
       (1000, ChangeSet.mk [("b", "r2")] [] [])]) =
      some (4000, [("a", "r1"), ("b", "r2")]) := by
  have hch : List.Chain' (fun a b => a.1 < b.1 ∧ b.1 < a.1 + saveDebounceMs)
      [((0 : Nat), ChangeSet.mk [("a", "r1")] [] []),
       (1000, ChangeSet.mk [("b", "r2")] [] [])] := by
    simp [List.chain'_cons, saveDebounceMs]
  have h := burst_single_debounced_save "p" []
    (0, ChangeSet.mk [("a", "r1")] [] [])
    [(1000, ChangeSet.mk [("b", "r2")] [] [])] hch (by decide)
  refine ⟨hch, ?_, h.2.1, ?_⟩
  · rw [h.1]
    decide
  · rw [h.2.2]
    decide

/-- Claim C6: a burst of pointer moves whose consecutive gaps are all shorter
than the 100 ms cursor-debounce window produces exactly one outbound
cursor broadcast, emitted when the trailing timeout fires 100 ms after
the last move, and it carries the position current at emission time —
the last move's position, not any intermediate one. -/
theorem cursor_burst_single_broadcast (pid : ProjectId)
    (pos : Option (Int × Int)) (m : Nat × Int × Int)
    (rest : List (Nat × Int × Int))
    (hch : List.Chain' (fun a b => a.1 < b.1 ∧ b.1 < a.1 + cursorDebounceMs) (m :: rest)) :
    cursorFlush pid (runCursor pid none pos (m :: rest)) =
      [Broadcast.canvasCursor pid
        ((m :: rest).getLast (List.cons_ne_nil m rest)).2.1
        ((m :: rest).getLast (List.cons_ne_nil m rest)).2.2] ∧
    (runCursor pid none pos (m :: rest)).2.1 =
      some (((m :: rest).getLast (List.cons_ne_nil m rest)).1 + cursorDebounceMs) := by
  have h := runCursor_burst pid rest m pos none (by simp) hch
  rw [h]
  exact ⟨by simp [cursorFlush], rfl⟩

/-- Witness for C6: three moves at 0, 40 and 90 ms yield exactly one
broadcast, at 190 ms, carrying the last position `(5, 6)`. -/
theorem cursor_burst_single_broadcast_witness :
    List.Chain' (fun a b => a.1 < b.1 ∧ b.1 < a.1 + cursorDebounceMs)
      [((0 : Nat), (1 : Int), (2 : Int)), (40, 3, 4), (90, 5, 6)] ∧
    cursorFlush "p" (runCursor "p" none none
      [((0 : Nat), (1 : Int), (2 : Int)), (40, 3, 4), (90, 5, 6)]) =
      [Broadcast.canvasCursor "p" 5 6] ∧
    (runCursor "p" none none
      [((0 : Nat), (1 : Int), (2 : Int)), (40, 3, 4), (90, 5, 6)]).2.1 =
      some 190 := by
  have hch : List.Chain' (fun a b => a.1 < b.1 ∧ b.1 < a.1 + cursorDebounceMs)
      [((0 : Nat), (1 : Int), (2 : Int)), (40, 3, 4), (90, 5, 6)] := by
    simp [List.chain'_cons, cursorDebounceMs]
  have h := cursor_burst_single_broadcast "p" none (0, 1, 2) [(40, 3, 4), (90, 5, 6)] hch
  refine ⟨hch, ?_, ?_⟩
  · rw [h.1]
    decide
  · rw [h.2]
    decide

/-- Claim C8: the hook's explicit `disconnect` fully clears its state: the
socket handle becomes null, `isConnected` false, `activeUsers` empty,
`userCount` zero, and no scheduled reconnection attempt remains pending. -/
theorem disconnect_clears_state (s : HookUiState) :
    hookDisconnect s =
      { socketPresent := false, isConnected := false, activeUsers := [],
        userCount := 0, reconnectPending := false } :=
  rfl

/-- Claim C9: an empty change entry produces no broadcast and leaves the save
timer untouched; a non-empty one both broadcasts and resets the save
timer to 3000 ms after it. -/
theorem emptyChange_no_effect (pending : Option Nat) (now : Nat)
    (pid : ProjectId) (cs cs' : ChangeSet) (he : hasChanges cs = false)
    (hne : hasChanges cs' = true) :
    handleChange false pending now pid cs = ([], pending) ∧
    handleChange false pending now pid cs' =
      ([Broadcast.canvasUpdate pid cs'], some (now + saveDebounceMs)) := by
  constructor <;> simp [handleChange, he, hne]

/-- Witness for C9 at an empty and a one-record change set. -/
theorem emptyChange_no_effect_witness :
    hasChanges ⟨[], [], []⟩ = false ∧ hasChanges ⟨[("a", "r")], [], []⟩ = true ∧
    handleChange false (some 7) 5 "p" ⟨[], [], []⟩ = ([], some 7) ∧
    handleChange false (some 7) 5 "p" ⟨[("a", "r")], [], []⟩ =
      ([Broadcast.canvasUpdate "p" ⟨[("a", "r")], [], []⟩], some (5 + saveDebounceMs)) := by
  have h := emptyChange_no_effect (some 7) 5 "p" ⟨[], [], []⟩ ⟨[("a", "r")], [], []⟩
    (by decide) (by decide)
  exact ⟨by decide, by decide, h.1, h.2⟩

/-- Claim C10: at most one persistence save is in flight: invoking
`saveCanvasState` while a save is in flight (or without an editor)
returns immediately — no request is issued and nothing is queued — and a
request is only ever issued from the idle state, which it leaves marked
in flight with exactly the triggering snapshot. -/
theorem save_single_flight (s : SaverState) (st : Store) :
    ((s.isSaving = true ∨ s.hasEditor = false) → saveCanvasState s st = (s, none)) ∧
    (∀ (s' : SaverState) (r : Store), saveCanvasState s st = (s', some r) →
      s.isSaving = false ∧ s.hasEditor = true ∧ s'.isSaving = true ∧ r = st ∧
      saveComplete s' = { s with isSaving := false }) := by
  constructor
  · intro h
    rcases h with h | h <;> simp [saveCanvasState, h]
  · intro s' r h
    by_cases he : s.hasEditor
    · by_cases hs : s.isSaving
      · simp [saveCanvasState, he, hs] at h
      · rw [Bool.not_eq_true] at hs
        simp [saveCanvasState, he, hs] at h
        refine ⟨hs, he, ?_, h.2.symm, ?_⟩
        · rw [← h.1]
        · rw [← h.1]
          simp [saveComplete, he]
    · simp [saveCanvasState, he] at h

/-- Witness for C10: a busy saver drops the invocation, an idle one
issues it. -/
theorem save_single_flight_witness :
    saveCanvasState ⟨true, true⟩ [("a", "r")] = (⟨true, true⟩, none) ∧
    saveCanvasState ⟨true, false⟩ [("a", "r")] = (⟨true, true⟩, some [("a", "r")]) := by
  refine ⟨(save_single_flight ⟨true, true⟩ [("a", "r")]).1 (Or.inl rfl), by decide⟩

end Synkora
